import Mathlib

/-!
Verification development for the keymapper server event loop
(`src/server/unix/main.cpp`).

The event-translation pipeline of the daemon is embedded shallowly:
the global variables of the anonymous namespace become the fields of
`ServerState`; the functions `schedule_flush`, `translate_input`,
`toggle_virtual_key`, `flush_send_buffer`, `read_client_messages` and
`read_initial_config` become Lean functions over that state.  External
collaborators whose code is not part of the repository slice (the `Key`
enumeration, the `Stage`, the `ClientPort` transport, the
`VirtualDevice`, the `ButtonDebouncer` and the clock) are modelled from
the specification as explicit parameters or simple data types; each such
definition carries a `Modelled from the spec:` comment.  Calls to
`stage.update`, `ClientPort.send_triggered_action` and
`VirtualDevice.send_key_event` / `flush` are recorded in an effect
trace so that ordering claims can be stated.
-/

/-- Modelled from the spec: `Clock::time_point` as an integer instant. -/
abbrev Time := Int

/-- Modelled from the spec: a duration (`std::chrono` value) as an integer. -/
abbrev Duration := Int

/-- Modelled from the spec: the `Key` enumeration, drawn from three disjoint
ranges (physical, virtual, action keys) plus the distinguished keys
`Timeout` and `None` (`runtime/KeyEvent.h` is outside the repository slice). -/
inductive Key where
  | noKey
  | phys (code : Nat)
  | virt (code : Nat)
  | action (index : Nat)
  | timeout
deriving DecidableEq

/-- Modelled from the spec: `KeyState` with the two I/O states and the two
internal Stage states. -/
inductive KeyState where
  | Down
  | Up
  | DownMatched
  | Not
deriving DecidableEq

/-- Modelled from the spec: `KeyEvent { key, state, timeout }`; the `timeout`
field is meaningful only for `key = Key.timeout`. -/
structure KeyEvent where
  key : Key
  state : KeyState
  timeout : Duration
deriving DecidableEq

/-- Modelled from the spec: `is_action_key`, true on the action-key range. -/
def is_action_key : Key → Bool
  | Key.action _ => true
  | _ => false

/-- Modelled from the spec: `is_virtual_key`, true on the virtual-key range. -/
def is_virtual_key : Key → Bool
  | Key.virt _ => true
  | _ => false

/-- Modelled from the spec: `*key - *Key::first_action`, the index of an
action key inside the action range. -/
def key_action_index : Key → Nat
  | Key.action i => i
  | _ => 0

/-- Modelled from the spec: `make_input_timeout_event` builds the synthetic
`Timeout` event carrying an elapsed duration (`runtime/Timeout.h` is outside
the repository slice); the pending-input-timeout marker role is encoded in
the state field. -/
def make_input_timeout_event (d : Duration) : KeyEvent :=
  ⟨Key.timeout, KeyState.Up, d⟩

/-- Modelled from the spec: `is_input_timeout_event` recognises the
pending-input-timeout marker among `Timeout` events. -/
def is_input_timeout_event (e : KeyEvent) : Bool :=
  decide (e.key = Key.timeout) && decide (e.state = KeyState.Up)

/-- Modelled from the spec: `timeout_to_milliseconds`, converting the
`timeout` payload of an event to a duration (identity in the model). -/
def timeout_to_milliseconds (d : Duration) : Duration := d

/-- The sentinel device index used for virtual-key recursion
(`no_device_index = 10000` in `main.cpp`). -/
def no_device_index : Int := 10000

/-- Modelled from the spec: the Stage update function
`stage.update(input, device_index)` returning the output key sequence.
The Stage implementation is outside the repository slice, so it is kept
abstract as a function parameter. -/
abbrev StageFn := KeyEvent → Int → List KeyEvent

/-- The mutable globals of `main.cpp`'s anonymous namespace that the
translation pipeline reads and writes. -/
structure ServerState where
  send_buffer : List KeyEvent
  flush_scheduled_at : Option Time
  input_timeout_start : Option Time
  input_timeout : Duration
  virtual_keys_down : List Key
  last_key_event : KeyEvent
  last_device_index : Int
deriving DecidableEq

/-- Observable calls made by the pipeline, in order: `stage.update`,
`ClientPort.send_triggered_action`, `VirtualDevice.send_key_event` and
`VirtualDevice.flush`. -/
inductive Effect where
  | stage_update (input : KeyEvent) (device_index : Int)
  | send_triggered_action (index : Nat)
  | send_key_event (event : KeyEvent)
  | flush_device
deriving DecidableEq

/-- `schedule_flush(delay)` (`main.cpp` lines 71-76): sets
`flush_scheduled_at = now + delay` only when it is currently unset. -/
def schedule_flush (now : Time) (delay : Duration) (s : ServerState) : ServerState :=
  if s.flush_scheduled_at.isSome then s
  else { s with flush_scheduled_at := some (now + delay) }

/-- The tail of `translate_input` (`main.cpp` lines 150-166): record
`last_key_event` / `last_device_index`, call `stage.update`, pop a trailing
pending-input-timeout marker into `input_timeout_start` / `input_timeout`,
and append the remaining output to the send buffer. -/
def translate_step (stage : StageFn) (now : Time) (s : ServerState)
    (input : KeyEvent) (device_index : Int) : ServerState × List Effect :=
  let s1 := { s with last_key_event := input, last_device_index := device_index }
  let output := stage input device_index
  match output.getLast? with
  | some last_evt =>
    if is_input_timeout_event last_evt then
      ({ s1 with input_timeout_start := some now,
                 input_timeout := timeout_to_milliseconds last_evt.timeout,
                 send_buffer := s1.send_buffer ++ output.dropLast },
       [Effect.stage_update input device_index])
    else
      ({ s1 with send_buffer := s1.send_buffer ++ output },
       [Effect.stage_update input device_index])
  | none =>
      ({ s1 with send_buffer := s1.send_buffer ++ output },
       [Effect.stage_update input device_index])

/-- `translate_input(input, device_index)` (`main.cpp` lines 135-167):
drop auto-repeats while output is deferred; cancel a pending input timeout
by first recursively translating a synthetic `Timeout` event carrying the
elapsed time; then run the common tail `translate_step`. -/
def translate_input (stage : StageFn) (now : Time) (s : ServerState)
    (input : KeyEvent) (device_index : Int) : ServerState × List Effect :=
  if input = s.last_key_event ∧
      (s.flush_scheduled_at.isSome ∨ s.input_timeout_start.isSome) then
    (s, [])
  else
    match h2 : s.input_timeout_start with
    | some start =>
      let r := translate_input stage now { s with input_timeout_start := none }
        (make_input_timeout_event (now - start)) device_index
      let r2 := translate_step stage now r.1 input device_index
      (r2.1, r.2 ++ r2.2)
    | none => translate_step stage now s input device_index
termination_by (if s.input_timeout_start.isSome then 1 else 0)
decreasing_by simp [h2]

/-- One non-recursive pass of `translate_input`: the repeat-suppression
check followed by `translate_step`.  On a state whose
`input_timeout_start` is unset this coincides with `translate_input`. -/
def translate_input_once (stage : StageFn) (now : Time) (s : ServerState)
    (input : KeyEvent) (device_index : Int) : ServerState × List Effect :=
  if input = s.last_key_event ∧
      (s.flush_scheduled_at.isSome ∨ s.input_timeout_start.isSome) then
    (s, [])
  else
    translate_step stage now s input device_index

/-- The body of `translate_input` with its single recursive occurrence
replaced by the non-recursive `translate_input_once`; depth-one unfolding. -/
def translate_input_unfolded (stage : StageFn) (now : Time) (s : ServerState)
    (input : KeyEvent) (device_index : Int) : ServerState × List Effect :=
  if input = s.last_key_event ∧
      (s.flush_scheduled_at.isSome ∨ s.input_timeout_start.isSome) then
    (s, [])
  else
    match s.input_timeout_start with
    | some start =>
      let r := translate_input_once stage now { s with input_timeout_start := none }
        (make_input_timeout_event (now - start)) device_index
      let r2 := translate_step stage now r.1 input device_index
      (r2.1, r.2 ++ r2.2)
    | none => translate_step stage now s input device_index

/-- `toggle_virtual_key(key)` (`main.cpp` lines 78-88): flip the latch in
`virtual_keys_down` and translate the corresponding `Down` / `Up` event
with the sentinel device index. -/
def toggle_virtual_key (stage : StageFn) (now : Time) (s : ServerState)
    (key : Key) : ServerState × List Effect :=
  if key ∈ s.virtual_keys_down then
    translate_input stage now { s with virtual_keys_down := s.virtual_keys_down.erase key }
      ⟨key, KeyState.Up, 0⟩ no_device_index
  else
    translate_input stage now { s with virtual_keys_down := s.virtual_keys_down ++ [key] }
      ⟨key, KeyState.Down, 0⟩ no_device_index

/-- Prepends effects to the trace of a flush-walk result. -/
def with_trace (pre : List Effect) :
    Option (Option Nat × ServerState × List Effect) →
    Option (Option Nat × ServerState × List Effect)
  | none => none
  | some (r, s, tr) => some (r, s, pre ++ tr)

/-- Modelled from the spec: the optional `ButtonDebouncer` as a pure
function `on_key_down(key, more_pending) -> delay` (its implementation is
outside the repository slice). -/
abbrev DebouncerFn := Key → Bool → Duration

/-- The walk of `flush_send_buffer` over the send buffer (`main.cpp`
lines 91-125).  `dev` models `VirtualDevice.send_key_event`.  The result is
`some (some i, s, tr)` when the loop exits at index `i` (the consumed
prefix), `some (none, s, tr)` when `send_key_event` failed (the early
`return false`), and `none` when the fuel is exhausted (the source loop may
iterate past the original buffer length because virtual-key toggles append
to the buffer being walked, so a fuel bound is required for totality). -/
def flush_walk (stage : StageFn) (dev : KeyEvent → Bool) (debounce : Option DebouncerFn)
    (now : Time) : Nat → Nat → ServerState → Option (Option Nat × ServerState × List Effect)
  | 0, _, _ => none
  | Nat.succ fuel, i, s =>
    if h : i < s.send_buffer.length then
      let event := s.send_buffer.get ⟨i, h⟩
      let is_last := decide (i = s.send_buffer.length - 1)
      if is_action_key event.key then
        let tr := if event.state = KeyState.Down
          then [Effect.send_triggered_action (key_action_index event.key)]
          else []
        with_trace tr (flush_walk stage dev debounce now fuel (i + 1) s)
      else if is_virtual_key event.key then
        if event.state = KeyState.Down then
          let r := toggle_virtual_key stage now s event.key
          with_trace r.2 (flush_walk stage dev debounce now fuel (i + 1) r.1)
        else
          flush_walk stage dev debounce now fuel (i + 1) s
      else if event.key = Key.timeout then
        some (some (i + 1), schedule_flush now (timeout_to_milliseconds event.timeout) s, [])
      else
        let delay : Duration :=
          match debounce, event.state with
          | some db, KeyState.Down => db event.key (!is_last)
          | _, _ => 0
        if 0 < delay then
          some (some i, schedule_flush now delay s, [])
        else if dev event then
          with_trace [Effect.send_key_event event]
            (flush_walk stage dev debounce now fuel (i + 1) s)
        else
          some (none, s, [Effect.send_key_event event])
    else
      some (some i, s, [])

/-- `flush_send_buffer()` (`main.cpp` lines 90-129): walk the buffer, then
erase the consumed prefix and call `VirtualDevice.flush()` (whose result is
the parameter `devflush`); a failing `send_key_event` returns `false`
before the erase and before the final flush. -/
def flush_send_buffer (stage : StageFn) (dev : KeyEvent → Bool)
    (debounce : Option DebouncerFn) (devflush : Bool) (now : Time) (fuel : Nat)
    (s : ServerState) : Option (Bool × ServerState × List Effect) :=
  match flush_walk stage dev debounce now fuel 0 s with
  | none => none
  | some (none, s1, tr) => some (false, s1, tr)
  | some (some i, s1, tr) =>
    some (devflush, { s1 with send_buffer := s1.send_buffer.drop i },
      tr ++ [Effect.flush_device])

/-- Modelled from the spec: the compiled configuration, exposing the
`has_mouse_mappings` predicate; `payload` distinguishes distinct compiled
forms. -/
structure Config where
  has_mouse_mappings : Bool
  payload : Nat
deriving DecidableEq

/-- Modelled from the spec: the observable Stage object held in `g_stage`:
its compiled configuration, active-context set, and the device-name list
its device-filter bitmaps were last evaluated against. -/
structure StageRec where
  config : Config
  active_contexts : List Nat
  device_filter_names : Option (List String)
deriving DecidableEq

/-- Modelled from the spec: `g_client.read_config` building a fresh Stage
from a compiled configuration. -/
def make_stage (cfg : Config) : StageRec :=
  ⟨cfg, [], none⟩

/-- `evaluate_device_filters()` (`main.cpp` lines 31-33): re-evaluate the
device-filter bitmaps of the stage against the grabbed device names. -/
def evaluate_device_filters (grabbed : List String) (st : StageRec) : StageRec :=
  { st with device_filter_names := some grabbed }

/-- Modelled from the spec: the two inbound client messages. -/
inductive Message where
  | configuration (cfg : Config)
  | active_contexts (contexts : List Nat)
deriving DecidableEq

/-- True exactly on `Configuration` messages. -/
def is_configuration_message : Message → Bool
  | Message.configuration _ => true
  | _ => false

/-- The message callback of `read_client_messages` (`main.cpp` lines 36-58):
a `Configuration` replaces the stage, dropping it entirely when
`has_mouse_mappings` changed, and otherwise re-evaluating device filters;
`ActiveContexts` updates the stage when one exists. -/
def handle_client_message (grabbed : List String) (stage : Option StageRec)
    (m : Message) : Option StageRec :=
  match m with
  | Message.configuration cfg =>
    let prev := stage
    let new_stage := make_stage cfg
    match prev with
    | some p =>
      if p.config.has_mouse_mappings ≠ new_stage.config.has_mouse_mappings then
        none
      else
        some (evaluate_device_filters grabbed new_stage)
    | none => some (evaluate_device_filters grabbed new_stage)
  | Message.active_contexts ctxs =>
    match stage with
    | some st => some { st with active_contexts := ctxs }
    | none => none

/-- `read_client_messages` (`main.cpp` lines 35-59): one call to
`ClientPort.read_messages`, which either fails (`incoming = none`) or
delivers a batch of messages processed in order by the callback. -/
def read_client_messages (grabbed : List String) (stage : Option StageRec)
    (incoming : Option (List Message)) : Bool × Option StageRec :=
  match incoming with
  | none => (false, stage)
  | some ms => (true, ms.foldl (handle_client_message grabbed) stage)

/-- `read_initial_config` (`main.cpp` lines 61-69): loop
`read_client_messages` until a stage exists, returning `false` when a read
fails; `reads` is the sequence of results of successive
`ClientPort.read_messages` calls, and an exhausted sequence models a
connection on which reading fails. -/
def read_initial_config (grabbed : List String) :
    List (Option (List Message)) → Option StageRec → Bool × Option StageRec
  | _, some st => (true, some st)
  | [], none => (false, none)
  | r :: rest, none =>
    match read_client_messages grabbed none r with
    | (false, st) => (false, st)
    | (true, st) => read_initial_config grabbed rest st

/-- The session-termination test of `main_loop` after draining client
messages (`main.cpp` lines 222-227): the loop returns (ending the session,
so the outer loop re-grabs devices) when the read failed or the stage was
dropped. -/
def client_update_terminates_session (ok : Bool) (stage : Option StageRec) : Bool :=
  !ok || stage.isNone

/-! ### Basic lemmas about the translation pipeline -/

theorem translate_step_trace (stage : StageFn) (now : Time) (s : ServerState)
    (input : KeyEvent) (di : Int) :
    (translate_step stage now s input di).2 = [Effect.stage_update input di] := by
  simp only [translate_step]
  rcases h : (stage input di).getLast? with _ | e
  · simp [h]
  · simp only [h]
    split <;> rfl

theorem translate_step_state (stage : StageFn) (now : Time) (s : ServerState)
    (input : KeyEvent) (di : Int) :
    (translate_step stage now s input di).1.virtual_keys_down = s.virtual_keys_down ∧
    (translate_step stage now s input di).1.last_key_event = input ∧
    (translate_step stage now s input di).1.last_device_index = di ∧
    (translate_step stage now s input di).1.flush_scheduled_at = s.flush_scheduled_at ∧
    ∃ t, (translate_step stage now s input di).1.send_buffer = s.send_buffer ++ t := by
  simp only [translate_step]
  rcases h : (stage input di).getLast? with _ | e
  · simp [h]
  · simp only [h]
    split
    · exact ⟨rfl, rfl, rfl, rfl, _, rfl⟩
    · exact ⟨rfl, rfl, rfl, rfl, _, rfl⟩

theorem translate_input_of_no_timeout (stage : StageFn) (now : Time) (s : ServerState)
    (input : KeyEvent) (di : Int) (h : s.input_timeout_start = none) :
    translate_input stage now s input di = translate_input_once stage now s input di := by
  obtain ⟨sb, fs, its, it, vk, lk, ld⟩ := s
  cases its with
  | none =>
    rw [translate_input.eq_def]
    rfl
  | some start => exact Option.noConfusion h

theorem translate_input_eq (stage : StageFn) (now : Time) (s : ServerState)
    (input : KeyEvent) (di : Int) :
    translate_input stage now s input di = translate_input_unfolded stage now s input di := by
  obtain ⟨sb, fs, its, it, vk, lk, ld⟩ := s
  cases its with
  | none =>
    rw [translate_input.eq_def]
    rfl
  | some start =>
    rw [translate_input.eq_def]
    dsimp only
    rw [translate_input.eq_def]
    rfl

theorem translate_step_char (stage : StageFn) (now : Time) (s : ServerState)
    (input : KeyEvent) (di : Int) :
    ∃ t its itd, translate_step stage now s input di =
      ({ s with send_buffer := s.send_buffer ++ t, input_timeout_start := its,
                input_timeout := itd, last_key_event := input, last_device_index := di },
       [Effect.stage_update input di]) := by
  simp only [translate_step]
  rcases h : (stage input di).getLast? with _ | e
  · simp only [h]
    exact ⟨stage input di, _, _, rfl⟩
  · simp only [h]
    split
    · exact ⟨(stage input di).dropLast, _, _, rfl⟩
    · exact ⟨stage input di, _, _, rfl⟩

theorem translate_step_vkeys (stage : StageFn) (now : Time) (s : ServerState)
    (input : KeyEvent) (di : Int) :
    (translate_step stage now s input di).1.virtual_keys_down = s.virtual_keys_down := by
  obtain ⟨t, its, itd, h⟩ := translate_step_char stage now s input di
  rw [h]

theorem translate_step_flush_at (stage : StageFn) (now : Time) (s : ServerState)
    (input : KeyEvent) (di : Int) :
    (translate_step stage now s input di).1.flush_scheduled_at = s.flush_scheduled_at := by
  obtain ⟨t, its, itd, h⟩ := translate_step_char stage now s input di
  rw [h]

theorem translate_step_last (stage : StageFn) (now : Time) (s : ServerState)
    (input : KeyEvent) (di : Int) :
    (translate_step stage now s input di).1.last_key_event = input := by
  obtain ⟨t, its, itd, h⟩ := translate_step_char stage now s input di
  rw [h]

theorem translate_step_buffer (stage : StageFn) (now : Time) (s : ServerState)
    (input : KeyEvent) (di : Int) :
    ∃ t, (translate_step stage now s input di).1.send_buffer = s.send_buffer ++ t := by
  obtain ⟨t, its, itd, h⟩ := translate_step_char stage now s input di
  exact ⟨t, by rw [h]⟩

theorem translate_input_suppressed_eq (stage : StageFn) (now : Time) (s : ServerState)
    (input : KeyEvent) (di : Int) (h1 : input = s.last_key_event)
    (h2 : s.flush_scheduled_at.isSome ∨ s.input_timeout_start.isSome) :
    translate_input stage now s input di = (s, []) := by
  rw [translate_input.eq_def]
  rw [if_pos ⟨h1, h2⟩]

theorem translate_input_once_cases (stage : StageFn) (now : Time) (s : ServerState)
    (input : KeyEvent) (di : Int) :
    translate_input_once stage now s input di = (s, []) ∨
    translate_input_once stage now s input di = translate_step stage now s input di := by
  unfold translate_input_once
  split
  · exact Or.inl rfl
  · exact Or.inr rfl

theorem translate_input_once_vkeys (stage : StageFn) (now : Time) (s : ServerState)
    (input : KeyEvent) (di : Int) :
    (translate_input_once stage now s input di).1.virtual_keys_down = s.virtual_keys_down := by
  rcases translate_input_once_cases stage now s input di with h | h <;> rw [h]
  exact translate_step_vkeys stage now s input di

theorem translate_input_once_flush_at (stage : StageFn) (now : Time) (s : ServerState)
    (input : KeyEvent) (di : Int) :
    (translate_input_once stage now s input di).1.flush_scheduled_at = s.flush_scheduled_at := by
  rcases translate_input_once_cases stage now s input di with h | h <;> rw [h]
  exact translate_step_flush_at stage now s input di

theorem translate_input_once_buffer (stage : StageFn) (now : Time) (s : ServerState)
    (input : KeyEvent) (di : Int) :
    ∃ t, (translate_input_once stage now s input di).1.send_buffer = s.send_buffer ++ t := by
  rcases translate_input_once_cases stage now s input di with h | h <;> rw [h]
  · exact ⟨[], by simp⟩
  · exact translate_step_buffer stage now s input di

theorem translate_input_once_trace (stage : StageFn) (now : Time) (s : ServerState)
    (input : KeyEvent) (di : Int) :
    (translate_input_once stage now s input di).2 = [] ∨
    (translate_input_once stage now s input di).2 = [Effect.stage_update input di] := by
  rcases translate_input_once_cases stage now s input di with h | h <;> rw [h]
  · exact Or.inl rfl
  · exact Or.inr (translate_step_trace stage now s input di)

theorem translate_input_vkeys (stage : StageFn) (now : Time) (s : ServerState)
    (input : KeyEvent) (di : Int) :
    (translate_input stage now s input di).1.virtual_keys_down = s.virtual_keys_down := by
  rw [translate_input_eq]
  unfold translate_input_unfolded
  split
  · rfl
  · rcases h : s.input_timeout_start with _ | start
    · simp only [h]
      exact translate_step_vkeys stage now s input di
    · simp only [h]
      rw [translate_step_vkeys]
      exact translate_input_once_vkeys stage now _ _ di

theorem translate_input_flush_at (stage : StageFn) (now : Time) (s : ServerState)
    (input : KeyEvent) (di : Int) :
    (translate_input stage now s input di).1.flush_scheduled_at = s.flush_scheduled_at := by
  rw [translate_input_eq]
  unfold translate_input_unfolded
  split
  · rfl
  · rcases h : s.input_timeout_start with _ | start
    · simp only [h]
      exact translate_step_flush_at stage now s input di
    · simp only [h]
      rw [translate_step_flush_at]
      exact translate_input_once_flush_at stage now _ _ di

theorem translate_input_buffer (stage : StageFn) (now : Time) (s : ServerState)
    (input : KeyEvent) (di : Int) :
    ∃ t, (translate_input stage now s input di).1.send_buffer = s.send_buffer ++ t := by
  rw [translate_input_eq]
  unfold translate_input_unfolded
  split
  · exact ⟨[], by simp⟩
  · rcases h : s.input_timeout_start with _ | start
    · simp only [h]
      exact translate_step_buffer stage now s input di
    · simp only [h]
      obtain ⟨t1, h1⟩ := translate_input_once_buffer stage now
        { s with input_timeout_start := none } (make_input_timeout_event (now - start)) di
      obtain ⟨t2, h2⟩ := translate_step_buffer stage now
        (translate_input_once stage now { s with input_timeout_start := none }
          (make_input_timeout_event (now - start)) di).1 input di
      exact ⟨t1 ++ t2, by simp only [h2, h1]; simp⟩

theorem translate_input_trace_shape (stage : StageFn) (now : Time) (s : ServerState)
    (input : KeyEvent) (di : Int) :
    ∀ e ∈ (translate_input stage now s input di).2, ∃ ev, e = Effect.stage_update ev di := by
  rw [translate_input_eq]
  unfold translate_input_unfolded
  split
  · intro e he
    exact absurd he (List.not_mem_nil e)
  · rcases h : s.input_timeout_start with _ | start
    · simp only [h]
      intro e he
      rw [translate_step_trace] at he
      rcases List.mem_singleton.mp he with rfl
      exact ⟨input, rfl⟩
    · simp only [h]
      intro e he
      rcases List.mem_append.mp he with h1 | h1
      · rcases translate_input_once_trace stage now
          { s with input_timeout_start := none } (make_input_timeout_event (now - start)) di with
          ht | ht
        · rw [ht] at h1
          exact absurd h1 (List.not_mem_nil e)
        · rw [ht] at h1
          rcases List.mem_singleton.mp h1 with rfl
          exact ⟨make_input_timeout_event (now - start), rfl⟩
      · rw [translate_step_trace] at h1
        rcases List.mem_singleton.mp h1 with rfl
        exact ⟨input, rfl⟩

/-! ### Counting `stage.update` calls in an effect trace -/

/-- True on a `stage_update` effect whose event has key `v` and state `st`. -/
def counts_stage_update (v : Key) (st : KeyState) : Effect → Bool
  | Effect.stage_update ev _ => decide (ev.key = v) && decide (ev.state = st)
  | _ => false

/-- Number of `stage.update` calls in a trace whose event has key `v` and
state `st`. -/
def stage_update_count (v : Key) (st : KeyState) (tr : List Effect) : Nat :=
  tr.countP (counts_stage_update v st)

theorem stage_update_count_append (v : Key) (st : KeyState) (tr1 tr2 : List Effect) :
    stage_update_count v st (tr1 ++ tr2) =
      stage_update_count v st tr1 + stage_update_count v st tr2 := by
  simp [stage_update_count, List.countP_append]

theorem stage_update_count_single (v : Key) (st : KeyState) (ev : KeyEvent) (di : Int) :
    stage_update_count v st [Effect.stage_update ev di] =
      if ev.key = v ∧ ev.state = st then 1 else 0 := by
  by_cases h1 : ev.key = v <;> by_cases h2 : ev.state = st <;>
    simp [stage_update_count, counts_stage_update, List.countP_cons, h1, h2]

theorem translate_input_last_of_ne (stage : StageFn) (now : Time) (s : ServerState)
    (input : KeyEvent) (di : Int)
    (hns : ¬(input = s.last_key_event ∧
      (s.flush_scheduled_at.isSome ∨ s.input_timeout_start.isSome))) :
    (translate_input stage now s input di).1.last_key_event = input := by
  rw [translate_input_eq]
  unfold translate_input_unfolded
  rw [if_neg hns]
  rcases h : s.input_timeout_start with _ | start
  · exact translate_step_last stage now s input di
  · exact translate_step_last stage now _ input di

theorem translate_input_count (stage : StageFn) (now : Time) (s : ServerState)
    (input : KeyEvent) (di : Int) (v : Key) (st : KeyState)
    (hns : ¬(input = s.last_key_event ∧
      (s.flush_scheduled_at.isSome ∨ s.input_timeout_start.isSome)))
    (hv : v ≠ Key.timeout) :
    stage_update_count v st (translate_input stage now s input di).2 =
      if input.key = v ∧ input.state = st then 1 else 0 := by
  rw [translate_input_eq]
  unfold translate_input_unfolded
  rw [if_neg hns]
  rcases h : s.input_timeout_start with _ | start
  · rw [translate_step_trace]
    exact stage_update_count_single v st input di
  · rw [stage_update_count_append]
    have hpre : stage_update_count v st (translate_input_once stage now
        { s with input_timeout_start := none } (make_input_timeout_event (now - start)) di).2 = 0 := by
      rcases translate_input_once_trace stage now
        { s with input_timeout_start := none } (make_input_timeout_event (now - start)) di with
        ht | ht
      · rw [ht]
        rfl
      · rw [ht, stage_update_count_single]
        rw [if_neg]
        rintro ⟨hk, -⟩
        exact hv hk.symm
    rw [hpre, translate_step_trace, stage_update_count_single]
    simp

/-! ### The virtual-key latch invariant -/

/-- The virtual-key latch invariant: the latch list has no duplicates, and
`last_key_event`, when it is a virtual-key event, agrees with the latch
list (a `Down` means latched, an `Up` means unlatched).  It holds at
program start (empty latch list, `last_key_event` not a virtual key) and is
preserved by every toggle. -/
def vk_inv (s : ServerState) : Prop :=
  s.virtual_keys_down.Nodup ∧
  (is_virtual_key s.last_key_event.key = true →
    (s.last_key_event.state = KeyState.Down →
      s.last_key_event.key ∈ s.virtual_keys_down) ∧
    (s.last_key_event.state = KeyState.Up →
      s.last_key_event.key ∉ s.virtual_keys_down))

theorem is_virtual_key_ne_timeout (v : Key) (h : is_virtual_key v = true) :
    v ≠ Key.timeout := by
  cases v <;> simp [is_virtual_key] at h ⊢

theorem toggle_virtual_key_spec (stage : StageFn) (now : Time) (s : ServerState) (k : Key)
    (hk : is_virtual_key k = true) (hinv : vk_inv s) :
    vk_inv (toggle_virtual_key stage now s k).1 ∧
    (∀ v, (v ∈ (toggle_virtual_key stage now s k).1.virtual_keys_down ↔
      (if v = k then v ∉ s.virtual_keys_down else v ∈ s.virtual_keys_down))) ∧
    (∀ v st, is_virtual_key v = true →
      stage_update_count v st (toggle_virtual_key stage now s k).2 =
        if v = k ∧ st = (if k ∈ s.virtual_keys_down then KeyState.Up else KeyState.Down)
        then 1 else 0) ∧
    (∀ e ∈ (toggle_virtual_key stage now s k).2,
      ∃ ev, e = Effect.stage_update ev no_device_index) := by
  obtain ⟨hnd, hlast⟩ := hinv
  by_cases hmem : k ∈ s.virtual_keys_down
  · -- the key is latched: erase it and translate an Up event
    have hbr : toggle_virtual_key stage now s k =
        translate_input stage now
          { s with virtual_keys_down := s.virtual_keys_down.erase k }
          ⟨k, KeyState.Up, 0⟩ no_device_index := by
      unfold toggle_virtual_key
      rw [if_pos hmem]
    have hne : (⟨k, KeyState.Up, 0⟩ : KeyEvent) ≠ s.last_key_event := by
      intro he
      have h1 : s.last_key_event.key = k := by rw [← he]
      have h2 : s.last_key_event.state = KeyState.Up := by rw [← he]
      have h3 := (hlast (by rw [h1]; exact hk)).2 h2
      rw [h1] at h3
      exact h3 hmem
    have hns : ¬((⟨k, KeyState.Up, 0⟩ : KeyEvent) =
        ({ s with virtual_keys_down := s.virtual_keys_down.erase k } : ServerState).last_key_event ∧
        (({ s with virtual_keys_down := s.virtual_keys_down.erase k } : ServerState).flush_scheduled_at.isSome ∨
         ({ s with virtual_keys_down := s.virtual_keys_down.erase k } : ServerState).input_timeout_start.isSome)) := by
      rintro ⟨he, -⟩
      exact hne he
    have hvk : (toggle_virtual_key stage now s k).1.virtual_keys_down =
        s.virtual_keys_down.erase k := by
      rw [hbr]
      exact translate_input_vkeys stage now _ _ no_device_index
    have hlk : (toggle_virtual_key stage now s k).1.last_key_event =
        (⟨k, KeyState.Up, 0⟩ : KeyEvent) := by
      rw [hbr]
      exact translate_input_last_of_ne stage now _ _ no_device_index hns
    refine ⟨⟨?_, ?_⟩, ?_, ?_, ?_⟩
    · rw [hvk]
      exact hnd.erase k
    · rw [hlk, hvk]
      intro hvirt
      refine ⟨?_, ?_⟩
      · intro hdown
        exact KeyState.noConfusion hdown
      · intro hup
        exact hnd.not_mem_erase
    · intro v
      rw [hvk]
      by_cases hv : v = k
      · subst hv
        simp [hnd.not_mem_erase, hmem]
      · simp only [if_neg hv]
        rw [hnd.mem_erase_iff]
        simp [hv]
    · intro v st hvrt
      rw [hbr, translate_input_count stage now _ _ no_device_index v st hns
        (is_virtual_key_ne_timeout v hvrt)]
      rw [if_pos hmem]
      have hiff : ((⟨k, KeyState.Up, 0⟩ : KeyEvent).key = v ∧
          (⟨k, KeyState.Up, 0⟩ : KeyEvent).state = st) ↔ (v = k ∧ st = KeyState.Up) := by
        constructor <;> rintro ⟨ha, hb⟩ <;> exact ⟨ha.symm, hb.symm⟩
      rw [if_congr hiff rfl rfl]
    · intro e he
      rw [hbr] at he
      exact translate_input_trace_shape stage now _ _ no_device_index e he
  · -- the key is not latched: append it and translate a Down event
    have hbr : toggle_virtual_key stage now s k =
        translate_input stage now
          { s with virtual_keys_down := s.virtual_keys_down ++ [k] }
          ⟨k, KeyState.Down, 0⟩ no_device_index := by
      unfold toggle_virtual_key
      rw [if_neg hmem]
    have hne : (⟨k, KeyState.Down, 0⟩ : KeyEvent) ≠ s.last_key_event := by
      intro he
      have h1 : s.last_key_event.key = k := by rw [← he]
      have h2 : s.last_key_event.state = KeyState.Down := by rw [← he]
      have h3 := (hlast (by rw [h1]; exact hk)).1 h2
      rw [h1] at h3
      exact hmem h3
    have hns : ¬((⟨k, KeyState.Down, 0⟩ : KeyEvent) =
        ({ s with virtual_keys_down := s.virtual_keys_down ++ [k] } : ServerState).last_key_event ∧
        (({ s with virtual_keys_down := s.virtual_keys_down ++ [k] } : ServerState).flush_scheduled_at.isSome ∨
         ({ s with virtual_keys_down := s.virtual_keys_down ++ [k] } : ServerState).input_timeout_start.isSome)) := by
      rintro ⟨he, -⟩
      exact hne he
    have hvk : (toggle_virtual_key stage now s k).1.virtual_keys_down =
        s.virtual_keys_down ++ [k] := by
      rw [hbr]
      exact translate_input_vkeys stage now _ _ no_device_index
    have hlk : (toggle_virtual_key stage now s k).1.last_key_event =
        (⟨k, KeyState.Down, 0⟩ : KeyEvent) := by
      rw [hbr]
      exact translate_input_last_of_ne stage now _ _ no_device_index hns
    refine ⟨⟨?_, ?_⟩, ?_, ?_, ?_⟩
    · rw [hvk, List.nodup_append]
      refine ⟨hnd, List.nodup_singleton k, ?_⟩
      intro x hx hxk
      rw [List.mem_singleton] at hxk
      subst hxk
      exact hmem hx
    · rw [hlk, hvk]
      intro hvirt
      refine ⟨?_, ?_⟩
      · intro hdown
        exact List.mem_append.mpr (Or.inr (List.mem_singleton.mpr rfl))
      · intro hup
        exact KeyState.noConfusion hup
    · intro v
      rw [hvk]
      by_cases hv : v = k
      · subst hv
        simp [hmem]
      · simp [List.mem_append, hv]
    · intro v st hvrt
      rw [hbr, translate_input_count stage now _ _ no_device_index v st hns
        (is_virtual_key_ne_timeout v hvrt)]
      rw [if_neg hmem]
      have hiff : ((⟨k, KeyState.Down, 0⟩ : KeyEvent).key = v ∧
          (⟨k, KeyState.Down, 0⟩ : KeyEvent).state = st) ↔ (v = k ∧ st = KeyState.Down) := by
        constructor <;> rintro ⟨ha, hb⟩ <;> exact ⟨ha.symm, hb.symm⟩
      rw [if_congr hiff rfl rfl]
    · intro e he
      rw [hbr] at he
      exact translate_input_trace_shape stage now _ _ no_device_index e he

theorem schedule_flush_buffer (now : Time) (d : Duration) (s : ServerState) :
    (schedule_flush now d s).send_buffer = s.send_buffer := by
  unfold schedule_flush
  split <;> rfl

theorem schedule_flush_vkeys (now : Time) (d : Duration) (s : ServerState) :
    (schedule_flush now d s).virtual_keys_down = s.virtual_keys_down := by
  unfold schedule_flush
  split <;> rfl

theorem vk_inv_schedule_flush (now : Time) (d : Duration) (s : ServerState)
    (hinv : vk_inv s) : vk_inv (schedule_flush now d s) := by
  unfold schedule_flush
  split
  · exact hinv
  · exact hinv

theorem toggle_virtual_key_buffer (stage : StageFn) (now : Time) (s : ServerState)
    (k : Key) :
    ∃ t, (toggle_virtual_key stage now s k).1.send_buffer = s.send_buffer ++ t := by
  unfold toggle_virtual_key
  split
  · exact translate_input_buffer stage now _ _ no_device_index
  · exact translate_input_buffer stage now _ _ no_device_index

theorem toggle_virtual_key_trace (stage : StageFn) (now : Time) (s : ServerState)
    (k : Key) :
    ∀ e ∈ (toggle_virtual_key stage now s k).2,
      ∃ ev, e = Effect.stage_update ev no_device_index := by
  unfold toggle_virtual_key
  split
  · exact translate_input_trace_shape stage now _ _ no_device_index
  · exact translate_input_trace_shape stage now _ _ no_device_index

theorem toggle_virtual_key_balance (stage : StageFn) (now : Time) (s : ServerState)
    (k : Key) (hk : is_virtual_key k = true) (hinv : vk_inv s)
    (v : Key) (hv : is_virtual_key v = true) :
    stage_update_count v KeyState.Down (toggle_virtual_key stage now s k).2 +
      (if v ∈ s.virtual_keys_down then 1 else 0) =
    stage_update_count v KeyState.Up (toggle_virtual_key stage now s k).2 +
      (if v ∈ (toggle_virtual_key stage now s k).1.virtual_keys_down then 1 else 0) := by
  obtain ⟨-, hmem, hcount, -⟩ := toggle_virtual_key_spec stage now s k hk hinv
  rw [hcount v KeyState.Down hv, hcount v KeyState.Up hv]
  by_cases hvk : v = k
  · subst hvk
    by_cases hm : v ∈ s.virtual_keys_down
    · have h2 : v ∉ (toggle_virtual_key stage now s v).1.virtual_keys_down := by
        rw [hmem v]
        simp [hm]
      simp [hm, h2]
    · have h2 : v ∈ (toggle_virtual_key stage now s v).1.virtual_keys_down := by
        rw [hmem v]
        simp [hm]
      simp [hm, h2]
  · have h2 : (v ∈ (toggle_virtual_key stage now s k).1.virtual_keys_down) ↔
        v ∈ s.virtual_keys_down := by
      rw [hmem v]
      simp [hvk]
    by_cases hm : v ∈ s.virtual_keys_down
    · simp [hvk, hm, h2.mpr hm]
    · have h3 : v ∉ (toggle_virtual_key stage now s k).1.virtual_keys_down :=
        fun hc => hm (h2.mp hc)
      simp [hvk, hm, h3]

theorem flush_walk_effects (stage : StageFn) (dev : KeyEvent → Bool)
    (debounce : Option DebouncerFn) (now : Time) :
    ∀ fuel i s r s2 tr, flush_walk stage dev debounce now fuel i s = some (r, s2, tr) →
      (∃ t, s2.send_buffer = s.send_buffer ++ t) ∧ Effect.flush_device ∉ tr := by
  intro fuel
  induction fuel with
  | zero =>
    intro i s r s2 tr h
    simp [flush_walk] at h
  | succ fuel ih =>
    intro i s r s2 tr h
    simp only [flush_walk] at h
    split at h
    · -- i < length
      split at h
      · -- action-key branch
        rcases hrec : flush_walk stage dev debounce now fuel (i + 1) s with _ | ⟨r', s2', tr'⟩
        · rw [hrec] at h
          simp [with_trace] at h
        · rw [hrec] at h
          simp only [with_trace, Option.some.injEq, Prod.mk.injEq] at h
          obtain ⟨hr, hs2, htr⟩ := h
          subst hr hs2 htr
          obtain ⟨⟨t, hbuf⟩, hnf⟩ := ih (i + 1) s r' s2' tr' hrec
          refine ⟨⟨t, hbuf⟩, ?_⟩
          intro hmemf
          rcases List.mem_append.mp hmemf with hm | hm
          · revert hm
            split <;> simp
          · exact hnf hm
      · split at h
        · split at h
          · -- virtual-key Down branch: toggle then continue
            rcases hrec : flush_walk stage dev debounce now fuel (i + 1)
                (toggle_virtual_key stage now s
                  (s.send_buffer.get ⟨i, by assumption⟩).key).1 with _ | ⟨r', s2', tr'⟩
            · rw [hrec] at h
              simp [with_trace] at h
            · rw [hrec] at h
              simp only [with_trace, Option.some.injEq, Prod.mk.injEq] at h
              obtain ⟨hr, hs2, htr⟩ := h
              subst hr hs2 htr
              obtain ⟨⟨t2, hbuf2⟩, hnf⟩ := ih (i + 1) _ r' s2' tr' hrec
              obtain ⟨t1, hbuf1⟩ := toggle_virtual_key_buffer stage now s
                (s.send_buffer.get ⟨i, by assumption⟩).key
              refine ⟨⟨t1 ++ t2, by rw [hbuf2, hbuf1, List.append_assoc]⟩, ?_⟩
              intro hmemf
              rcases List.mem_append.mp hmemf with hm | hm
              · obtain ⟨ev, he⟩ := toggle_virtual_key_trace stage now s
                  (s.send_buffer.get ⟨i, by assumption⟩).key Effect.flush_device hm
                exact Effect.noConfusion he
              · exact hnf hm
          · -- virtual-key Up branch: skipped
            exact ih (i + 1) s r s2 tr h
        · split at h
          · -- timeout element: schedule a flush and stop
            simp only [Option.some.injEq, Prod.mk.injEq] at h
            obtain ⟨hr, hs2, htr⟩ := h
            subst hr hs2 htr
            exact ⟨⟨[], by rw [schedule_flush_buffer, List.append_nil]⟩, by simp⟩
          · split at h
            · -- positive debounce delay: schedule a flush and stop
              simp only [Option.some.injEq, Prod.mk.injEq] at h
              obtain ⟨hr, hs2, htr⟩ := h
              subst hr hs2 htr
              exact ⟨⟨[], by rw [schedule_flush_buffer, List.append_nil]⟩, by simp⟩
            · split at h
              · -- send succeeded: continue
                rcases hrec : flush_walk stage dev debounce now fuel (i + 1) s with _ | ⟨r', s2', tr'⟩
                · rw [hrec] at h
                  simp [with_trace] at h
                · rw [hrec] at h
                  simp only [with_trace, Option.some.injEq, Prod.mk.injEq] at h
                  obtain ⟨hr, hs2, htr⟩ := h
                  subst hr hs2 htr
                  obtain ⟨⟨t, hbuf⟩, hnf⟩ := ih (i + 1) s r' s2' tr' hrec
                  refine ⟨⟨t, hbuf⟩, ?_⟩
                  intro hmemf
                  rcases List.mem_append.mp hmemf with hm | hm
                  · simp at hm
                  · exact hnf hm
              · -- send failed: stop with the buffer untouched
                simp only [Option.some.injEq, Prod.mk.injEq] at h
                obtain ⟨hr, hs2, htr⟩ := h
                subst hr hs2 htr
                exact ⟨⟨[], by rw [List.append_nil]⟩, by simp⟩
    · -- i ≥ length: the walk is complete
      simp only [Option.some.injEq, Prod.mk.injEq] at h
      obtain ⟨hr, hs2, htr⟩ := h
      subst hr hs2 htr
      exact ⟨⟨[], by rw [List.append_nil]⟩, by simp⟩

theorem stage_update_count_ite_action (v : Key) (st : KeyState) (c : Prop)
    [Decidable c] (n : Nat) :
    stage_update_count v st (if c then [Effect.send_triggered_action n] else []) = 0 := by
  split <;> rfl

theorem stage_update_not_mem_ite_action (ev : KeyEvent) (di : Int) (c : Prop)
    [Decidable c] (n : Nat) :
    Effect.stage_update ev di ∉ (if c then [Effect.send_triggered_action n] else []) := by
  split <;> simp

theorem stage_update_count_send (v : Key) (st : KeyState) (e : KeyEvent) :
    stage_update_count v st [Effect.send_key_event e] = 0 := rfl

theorem flush_walk_latch (stage : StageFn) (dev : KeyEvent → Bool)
    (debounce : Option DebouncerFn) (now : Time) :
    ∀ fuel i s r s2 tr, vk_inv s →
      flush_walk stage dev debounce now fuel i s = some (r, s2, tr) →
      vk_inv s2 ∧
      (∀ v, is_virtual_key v = true →
        stage_update_count v KeyState.Down tr +
          (if v ∈ s.virtual_keys_down then 1 else 0) =
        stage_update_count v KeyState.Up tr +
          (if v ∈ s2.virtual_keys_down then 1 else 0)) ∧
      (∀ ev di, Effect.stage_update ev di ∈ tr → di = no_device_index) := by
  intro fuel
  induction fuel with
  | zero =>
    intro i s r s2 tr hinv h
    simp [flush_walk] at h
  | succ fuel ih =>
    intro i s r s2 tr hinv h
    simp only [flush_walk] at h
    split at h
    · -- i < length
      split at h
      · -- action-key branch
        rcases hrec : flush_walk stage dev debounce now fuel (i + 1) s with _ | ⟨r', s2', tr'⟩
        · rw [hrec] at h
          simp [with_trace] at h
        · rw [hrec] at h
          simp only [with_trace, Option.some.injEq, Prod.mk.injEq] at h
          obtain ⟨hr, hs2, htr⟩ := h
          subst hr hs2 htr
          obtain ⟨hinv2, hcnt2, hsent2⟩ := ih (i + 1) s r' s2' tr' hinv hrec
          refine ⟨hinv2, ?_, ?_⟩
          · intro v hv
            rw [stage_update_count_append, stage_update_count_append,
              stage_update_count_ite_action, stage_update_count_ite_action]
            have := hcnt2 v hv
            omega
          · intro ev di hmem
            rcases List.mem_append.mp hmem with hm | hm
            · exact absurd hm (stage_update_not_mem_ite_action ev di _ _)
            · exact hsent2 ev di hm
      · split at h
        · split at h
          · -- virtual-key Down branch: toggle then continue
            rename_i hlt hnact hvirt hdown
            rcases hrec : flush_walk stage dev debounce now fuel (i + 1)
                (toggle_virtual_key stage now s
                  (s.send_buffer.get ⟨i, hlt⟩).key).1 with _ | ⟨r', s2', tr'⟩
            · rw [hrec] at h
              simp [with_trace] at h
            · rw [hrec] at h
              simp only [with_trace, Option.some.injEq, Prod.mk.injEq] at h
              obtain ⟨hr, hs2, htr⟩ := h
              subst hr hs2 htr
              have hinvt := (toggle_virtual_key_spec stage now s
                (s.send_buffer.get ⟨i, hlt⟩).key hvirt hinv).1
              obtain ⟨hinv2, hcnt2, hsent2⟩ := ih (i + 1) _ r' s2' tr' hinvt hrec
              refine ⟨hinv2, ?_, ?_⟩
              · intro v hv
                rw [stage_update_count_append, stage_update_count_append]
                have hb := toggle_virtual_key_balance stage now s
                  (s.send_buffer.get ⟨i, hlt⟩).key hvirt hinv v hv
                have hi := hcnt2 v hv
                omega
              · intro ev di hmem
                rcases List.mem_append.mp hmem with hm | hm
                · obtain ⟨ev', he⟩ := toggle_virtual_key_trace stage now s
                    (s.send_buffer.get ⟨i, hlt⟩).key (Effect.stage_update ev di) hm
                  rw [Effect.stage_update.injEq] at he
                  exact he.2
                · exact hsent2 ev di hm
          · -- virtual-key Up branch: skipped
            exact ih (i + 1) s r s2 tr hinv h
        · split at h
          · -- timeout element: schedule a flush and stop
            simp only [Option.some.injEq, Prod.mk.injEq] at h
            obtain ⟨hr, hs2, htr⟩ := h
            subst hr hs2 htr
            refine ⟨vk_inv_schedule_flush now _ s hinv, ?_, by simp⟩
            intro v hv
            simp [schedule_flush_vkeys, stage_update_count]
          · split at h
            · -- positive debounce delay: schedule a flush and stop
              simp only [Option.some.injEq, Prod.mk.injEq] at h
              obtain ⟨hr, hs2, htr⟩ := h
              subst hr hs2 htr
              refine ⟨vk_inv_schedule_flush now _ s hinv, ?_, by simp⟩
              intro v hv
              simp [schedule_flush_vkeys, stage_update_count]
            · split at h
              · -- send succeeded: continue
                rcases hrec : flush_walk stage dev debounce now fuel (i + 1) s with _ | ⟨r', s2', tr'⟩
                · rw [hrec] at h
                  simp [with_trace] at h
                · rw [hrec] at h
                  simp only [with_trace, Option.some.injEq, Prod.mk.injEq] at h
                  obtain ⟨hr, hs2, htr⟩ := h
                  subst hr hs2 htr
                  obtain ⟨hinv2, hcnt2, hsent2⟩ := ih (i + 1) s r' s2' tr' hinv hrec
                  refine ⟨hinv2, ?_, ?_⟩
                  · intro v hv
                    rw [stage_update_count_append, stage_update_count_append,
                      stage_update_count_send, stage_update_count_send]
                    have := hcnt2 v hv
                    omega
                  · intro ev di hmem
                    rcases List.mem_append.mp hmem with hm | hm
                    · simp at hm
                    · exact hsent2 ev di hm
              · -- send failed: stop with the state unchanged
                simp only [Option.some.injEq, Prod.mk.injEq] at h
                obtain ⟨hr, hs2, htr⟩ := h
                subst hr hs2 htr
                exact ⟨hinv, fun v hv => rfl, by simp⟩
    · -- i ≥ length: the walk is complete
      simp only [Option.some.injEq, Prod.mk.injEq] at h
      obtain ⟨hr, hs2, htr⟩ := h
      subst hr hs2 htr
      exact ⟨hinv, fun v hv => rfl, by simp⟩

theorem flush_walk_action_only (stage : StageFn) (dev : KeyEvent → Bool)
    (debounce : Option DebouncerFn) (now : Time) :
    ∀ fuel i s, (∀ e ∈ s.send_buffer, is_action_key e.key = true) →
      i ≤ s.send_buffer.length → s.send_buffer.length - i < fuel →
      flush_walk stage dev debounce now fuel i s =
        some (some s.send_buffer.length, s,
          ((s.send_buffer.drop i).filter (fun e => decide (e.state = KeyState.Down))).map
            (fun e => Effect.send_triggered_action (key_action_index e.key))) := by
  intro fuel
  induction fuel with
  | zero =>
    intro i s hall hle hf
    omega
  | succ fuel ih =>
    intro i s hall hle hf
    by_cases hlt : i < s.send_buffer.length
    · have hact : is_action_key (s.send_buffer.get ⟨i, hlt⟩).key = true :=
        hall _ (List.get_mem s.send_buffer i hlt)
      simp only [flush_walk]
      rw [dif_pos hlt, if_pos hact]
      rw [ih (i + 1) s hall (by omega) (by omega)]
      simp only [with_trace]
      rw [List.drop_eq_getElem_cons hlt]
      have hgg : s.send_buffer.get ⟨i, hlt⟩ = s.send_buffer[i] := rfl
      by_cases hst : s.send_buffer[i].state = KeyState.Down
      · simp only [List.filter_cons]
        simp [hst, hgg]
      · simp only [List.filter_cons]
        simp [hst, hgg]
    · have hi : i = s.send_buffer.length := by omega
      subst hi
      simp only [flush_walk]
      rw [dif_neg hlt]
      rw [List.drop_length]
      rfl

/-! ### Claim theorems -/

/-- C2: an input event equal to `last_key_event` that arrives while
`flush_scheduled_at` or `input_timeout_start` is set is dropped:
`translate_input` returns immediately, `stage.update` is not called (the
effect trace is empty), and `send_buffer`, `last_key_event`,
`last_device_index`, `input_timeout_start` and `flush_scheduled_at` are all
unchanged (the entire state is returned as-is). -/
theorem repeat_suppression_drops_event (stage : StageFn) (now : Time) (s : ServerState)
    (input : KeyEvent) (di : Int) (h1 : input = s.last_key_event)
    (h2 : s.flush_scheduled_at.isSome ∨ s.input_timeout_start.isSome) :
    translate_input stage now s input di = (s, []) :=
  translate_input_suppressed_eq stage now s input di h1 h2

def c2_event : KeyEvent := ⟨Key.phys 30, KeyState.Down, 0⟩

def c2_state : ServerState := ⟨[], some 5, none, 0, [], c2_event, 2⟩

/-- Witness for C2: a concrete repeated event while a flush is scheduled. -/
theorem repeat_suppression_drops_event_witness :
    translate_input (fun _ _ => []) 7 c2_state c2_event 3 = (c2_state, []) :=
  repeat_suppression_drops_event (fun _ _ => []) 7 c2_state c2_event 3 rfl (Or.inl rfl)

def c1_event : KeyEvent := ⟨Key.phys 31, KeyState.Down, 0⟩

def c1_state : ServerState := ⟨[], none, some 2, 0, [], c1_event, 4⟩

/-- C1 counterexample: when the arriving event equals `last_key_event`, the
repeat-suppression check fires first even though `input_timeout_start` is
set, so the pending input timeout is NOT cancelled (`input_timeout_start`
stays `some 2`) and no synthetic `Timeout` event reaches `stage.update`
(the trace is empty) — refuting the claim for such calls. -/
theorem timeout_cancellation_skipped_on_repeat :
    (translate_input (fun _ _ => []) 10 c1_state c1_event 4).1.input_timeout_start = some 2 ∧
    (translate_input (fun _ _ => []) 10 c1_state c1_event 4).2 = [] := by
  have h := translate_input_suppressed_eq (fun _ _ => []) 10 c1_state c1_event 4 rfl (Or.inr rfl)
  rw [h]
  exact ⟨rfl, rfl⟩

/-- C1 (amended): for every call of `translate_input` while
`input_timeout_start = some t0` that is not dropped by repeat suppression
(the input differs from `last_key_event`), and whose synthetic timeout
event is not itself suppressed as a repeat (it differs from
`last_key_event`, or no flush is scheduled), the pending timeout is
cancelled and a synthetic `Timeout` event carrying `now - t0` is passed to
`stage.update` first, followed by the new input event. -/
theorem timeout_cancellation_translates_timeout_first (stage : StageFn) (now : Time)
    (s : ServerState) (input : KeyEvent) (di : Int) (t0 : Time)
    (h0 : s.input_timeout_start = some t0)
    (h1 : input ≠ s.last_key_event)
    (h2 : make_input_timeout_event (now - t0) ≠ s.last_key_event ∨
      s.flush_scheduled_at = none) :
    (translate_input stage now s input di).2 =
      [Effect.stage_update (make_input_timeout_event (now - t0)) di,
       Effect.stage_update input di] := by
  rw [translate_input_eq]
  unfold translate_input_unfolded
  rw [if_neg (by rintro ⟨he, -⟩; exact h1 he)]
  simp only [h0]
  have hcond : ¬(make_input_timeout_event (now - t0) =
      ({ s with input_timeout_start := none } : ServerState).last_key_event ∧
      (({ s with input_timeout_start := none } : ServerState).flush_scheduled_at.isSome ∨
       ({ s with input_timeout_start := none } : ServerState).input_timeout_start.isSome)) := by
    rintro ⟨he, hor⟩
    rcases h2 with h2 | h2
    · exact h2 he
    · rcases hor with hf | ht
      · simp [h2] at hf
      · simp at ht
  have hr : translate_input_once stage now { s with input_timeout_start := none }
      (make_input_timeout_event (now - t0)) di =
      translate_step stage now { s with input_timeout_start := none }
        (make_input_timeout_event (now - t0)) di := by
    unfold translate_input_once
    rw [if_neg hcond]
  rw [hr, translate_step_trace, translate_step_trace]
  rfl

def c1a_last : KeyEvent := ⟨Key.phys 40, KeyState.Up, 0⟩

def c1a_input : KeyEvent := ⟨Key.phys 41, KeyState.Down, 0⟩

def c1a_state : ServerState := ⟨[], none, some 4, 0, [], c1a_last, 0⟩

/-- Witness for the amended C1 at a concrete input. -/
theorem timeout_cancellation_translates_timeout_first_witness :
    (translate_input (fun _ _ => []) 9 c1a_state c1a_input 6).2 =
      [Effect.stage_update (make_input_timeout_event (9 - 4)) 6,
       Effect.stage_update c1a_input 6] :=
  timeout_cancellation_translates_timeout_first (fun _ _ => []) 9 c1a_state c1a_input 6 4
    rfl (by decide) (Or.inr rfl)

/-- C10: the self-recursion of `translate_input` has depth at most one:
the function is extensionally equal to `translate_input_unfolded`, whose
single nested translation (of the synthetic `Timeout` event, on the state
with `input_timeout_start` already cleared) is the non-recursive
`translate_input_once`, so the recursive invocation can never take the
cancellation branch again and every call terminates (the definition of
`translate_input` is total, by well-founded recursion on whether
`input_timeout_start` is set). -/
theorem translate_input_depth_at_most_one (stage : StageFn) (now : Time)
    (s : ServerState) (input : KeyEvent) (di : Int) :
    translate_input stage now s input di = translate_input_unfolded stage now s input di :=
  translate_input_eq stage now s input di

/-- C6: `schedule_flush(d)` sets `flush_scheduled_at = now + d` only when
it is currently unset; when it is already set the call is a no-op, so the
deadline is never extended. -/
theorem schedule_flush_only_when_unset (now : Time) (d : Duration) (s : ServerState) :
    (s.flush_scheduled_at = none →
      schedule_flush now d s = { s with flush_scheduled_at := some (now + d) }) ∧
    (s.flush_scheduled_at.isSome →
      schedule_flush now d s = s) := by
  constructor
  · intro h
    simp [schedule_flush, h]
  · intro h
    unfold schedule_flush
    rw [if_pos h]

def c6_state_unset : ServerState := ⟨[], none, none, 0, [], ⟨Key.noKey, KeyState.Up, 0⟩, 0⟩

def c6_state_set : ServerState := ⟨[], some 11, none, 0, [], ⟨Key.noKey, KeyState.Up, 0⟩, 0⟩

/-- Witness for C6 at concrete set and unset states. -/
theorem schedule_flush_only_when_unset_witness :
    schedule_flush 3 2 c6_state_unset =
      { c6_state_unset with flush_scheduled_at := some (3 + 2) } ∧
    schedule_flush 3 2 c6_state_set = c6_state_set :=
  ⟨(schedule_flush_only_when_unset 3 2 c6_state_unset).1 rfl,
   (schedule_flush_only_when_unset 3 2 c6_state_set).2 rfl⟩

def c5_state : ServerState :=
  ⟨[⟨Key.timeout, KeyState.Down, 0⟩], none, none, 0, [], ⟨Key.noKey, KeyState.Up, 0⟩, 0⟩

/-- C5 counterexample: a `Timeout` element of zero duration in the send
buffer makes `flush_send_buffer` call `schedule_flush(0)`, which sets
`flush_scheduled_at` to exactly the current instant `5` — which is not
strictly later than the time `5` at which it was set. -/
theorem schedule_flush_not_strictly_future :
    flush_send_buffer (fun _ _ => []) (fun _ => true) none true 5 3 c5_state =
      some (true, { c5_state with send_buffer := [], flush_scheduled_at := some 5 },
        [Effect.flush_device]) ∧
    ¬ ((5 : Time) < 5) := by
  constructor
  · decide
  · decide

/-- C5 (amended): a `schedule_flush(d)` call that sets the deadline (the
deadline was unset) sets it to `now + d`; this lies strictly in the future
of the set time exactly when the delay is positive — which the debouncer
path guarantees (`delay > 0` is checked) but the `Timeout`-element path
does not. -/
theorem schedule_flush_future_when_positive_delay (now : Time) (d : Duration)
    (s : ServerState) (h1 : s.flush_scheduled_at = none) (h2 : 0 < d) :
    (schedule_flush now d s).flush_scheduled_at = some (now + d) ∧ now < now + d := by
  constructor
  · simp [schedule_flush, h1]
  · exact lt_add_of_pos_right now h2

def c5a_state : ServerState := ⟨[], none, none, 0, [], ⟨Key.noKey, KeyState.Up, 0⟩, 0⟩

/-- Witness for the amended C5 with a positive delay. -/
theorem schedule_flush_future_when_positive_delay_witness :
    (schedule_flush 5 2 c5a_state).flush_scheduled_at = some (5 + 2) ∧ (5 : Time) < 5 + 2 :=
  schedule_flush_future_when_positive_delay 5 2 c5a_state rfl (by decide)

def c4_cfg : Config := ⟨false, 1⟩

/-- C4 counterexample: when the very first message after accept is an
`ActiveContexts` message (not a `Configuration`), the EventLoop does NOT
discard the connection: `read_initial_config` keeps reading on the same
connection and succeeds once a `Configuration` arrives in a later read. -/
theorem initial_config_not_discarded_on_other_message :
    is_configuration_message (Message.active_contexts [0]) = false ∧
    read_initial_config [] [some [Message.active_contexts [0]],
        some [Message.configuration c4_cfg]] none =
      (true, some (evaluate_device_filters [] (make_stage c4_cfg))) := by
  exact ⟨rfl, rfl⟩

/-- C4 (amended): after accepting a client, a first message that is not a
`Configuration` does not cause the connection to be discarded: a
successful read delivering only non-`Configuration` messages leaves the
stage unset and `read_initial_config` keeps waiting on the same
connection; the connection is given up only when a read fails. -/
theorem initial_config_waits_for_configuration (grabbed : List String)
    (ms : List Message) (rest : List (Option (List Message)))
    (h : ∀ m ∈ ms, is_configuration_message m = false) :
    read_client_messages grabbed none (some ms) = (true, none) ∧
    read_initial_config grabbed (some ms :: rest) none =
      read_initial_config grabbed rest none ∧
    read_initial_config grabbed (none :: rest) none = (false, none) := by
  have hfold : ∀ ms2 : List Message, (∀ m ∈ ms2, is_configuration_message m = false) →
      ms2.foldl (handle_client_message grabbed) none = none := by
    intro ms2
    induction ms2 with
    | nil =>
      intro _
      rfl
    | cons m ms2 ihm =>
      intro hm
      cases m with
      | configuration cfg =>
        exact absurd (hm _ (List.mem_cons_self _ _)) (by simp [is_configuration_message])
      | active_contexts ctxs =>
        simp only [List.foldl_cons]
        exact ihm (fun m hm2 => hm m (List.mem_cons_of_mem _ hm2))
  have h1 : read_client_messages grabbed none (some ms) = (true, none) := by
    simp [read_client_messages, hfold ms h]
  refine ⟨h1, ?_, rfl⟩
  simp only [read_initial_config]
  rw [h1]

def c4w_cfg : Config := ⟨true, 2⟩

/-- Witness for the amended C4 at a concrete message sequence. -/
theorem initial_config_waits_for_configuration_witness :
    read_client_messages [] none (some [Message.active_contexts [1]]) = (true, none) ∧
    read_initial_config [] (some [Message.active_contexts [1]] ::
        [some [Message.configuration c4w_cfg]]) none =
      read_initial_config [] [some [Message.configuration c4w_cfg]] none ∧
    read_initial_config [] (none :: [some [Message.configuration c4w_cfg]]) none =
      (false, none) :=
  initial_config_waits_for_configuration [] [Message.active_contexts [1]]
    [some [Message.configuration c4w_cfg]] (by decide)

/-- C8: on receiving a `Configuration` while a Stage already exists: if the
old and new configurations disagree on `has_mouse_mappings()`, the stage
is dropped (the stage pointer becomes `none`), which makes the main loop's
post-drain check terminate the session so the outer loop re-grabs devices;
otherwise the new stage (freshly built from the new configuration)
replaces the old one, with its device-filter bitmaps re-evaluated against
the grabbed device names. -/
theorem reconfiguration_drops_or_replaces_stage (grabbed : List String)
    (p : StageRec) (cfg : Config) :
    (p.config.has_mouse_mappings ≠ cfg.has_mouse_mappings →
      handle_client_message grabbed (some p) (Message.configuration cfg) = none ∧
      client_update_terminates_session true
        (handle_client_message grabbed (some p) (Message.configuration cfg)) = true) ∧
    (p.config.has_mouse_mappings = cfg.has_mouse_mappings →
      handle_client_message grabbed (some p) (Message.configuration cfg) =
        some { config := cfg, active_contexts := [],
               device_filter_names := some grabbed }) := by
  constructor
  · intro h
    have he : handle_client_message grabbed (some p) (Message.configuration cfg) = none := by
      simp [handle_client_message, make_stage, h]
    exact ⟨he, by rw [he]; rfl⟩
  · intro h
    simp [handle_client_message, make_stage, h, evaluate_device_filters]

def c8_cfg_mouse : Config := ⟨true, 3⟩

def c8_cfg_plain : Config := ⟨false, 4⟩

def c8_stage : StageRec := ⟨c8_cfg_plain, [2], some ["kbd"]⟩

/-- Witness for C8 at concrete configurations differing and agreeing on
mouse mappings. -/
theorem reconfiguration_drops_or_replaces_stage_witness :
    (handle_client_message ["kbd"] (some c8_stage) (Message.configuration c8_cfg_mouse) = none ∧
     client_update_terminates_session true
       (handle_client_message ["kbd"] (some c8_stage)
         (Message.configuration c8_cfg_mouse)) = true) ∧
    handle_client_message ["kbd"] (some c8_stage) (Message.configuration c8_cfg_plain) =
      some { config := c8_cfg_plain, active_contexts := [],
             device_filter_names := some ["kbd"] } :=
  ⟨(reconfiguration_drops_or_replaces_stage ["kbd"] c8_stage c8_cfg_mouse).1 (by decide),
   (reconfiguration_drops_or_replaces_stage ["kbd"] c8_stage c8_cfg_plain).2 rfl⟩

/-- C9: if `VirtualDevice.send_key_event` returns `false` for some event
during the flush walk, `flush_send_buffer` returns `false` without
removing any elements from the send buffer in that call — the original
buffer is an unerased prefix of the resulting one (virtual-key toggles may
only have appended events behind it), and the final
`VirtualDevice.flush()` is not performed (no `flush_device` effect appears
in the trace). -/
theorem flush_send_failure_preserves_buffer (stage : StageFn) (dev : KeyEvent → Bool)
    (debounce : Option DebouncerFn) (devflush : Bool) (now : Time) (fuel : Nat)
    (s s2 : ServerState) (tr : List Effect)
    (h : flush_walk stage dev debounce now fuel 0 s = some (none, s2, tr)) :
    flush_send_buffer stage dev debounce devflush now fuel s = some (false, s2, tr) ∧
    (∃ t, s2.send_buffer = s.send_buffer ++ t) ∧
    Effect.flush_device ∉ tr := by
  obtain ⟨hbuf, hnf⟩ := flush_walk_effects stage dev debounce now fuel 0 s none s2 tr h
  refine ⟨?_, hbuf, hnf⟩
  unfold flush_send_buffer
  rw [h]

def c9_event : KeyEvent := ⟨Key.phys 50, KeyState.Down, 0⟩

def c9_state : ServerState := ⟨[c9_event], none, none, 0, [], ⟨Key.noKey, KeyState.Up, 0⟩, 0⟩

/-- Witness for C9: a concrete failing `send_key_event`. -/
theorem flush_send_failure_preserves_buffer_witness :
    flush_send_buffer (fun _ _ => []) (fun _ => false) none true 4 2 c9_state =
      some (false, c9_state, [Effect.send_key_event c9_event]) ∧
    (∃ t, c9_state.send_buffer = c9_state.send_buffer ++ t) ∧
    Effect.flush_device ∉ [Effect.send_key_event c9_event] :=
  flush_send_failure_preserves_buffer (fun _ _ => []) (fun _ => false) none true 4 2
    c9_state c9_state [Effect.send_key_event c9_event] (by decide)

def c7_timeout_event : KeyEvent := ⟨Key.timeout, KeyState.Down, 7⟩

def c7_action_event : KeyEvent := ⟨Key.action 0, KeyState.Down, 0⟩

def c7_state : ServerState :=
  ⟨[c7_timeout_event, c7_action_event], none, none, 0, [], ⟨Key.noKey, KeyState.Up, 0⟩, 0⟩

/-- C7 counterexample: an action-key `Down` event in the send buffer is
neither triggered nor consumed when a `Timeout` element precedes it: the
walk stops at the `Timeout` element, schedules a flush, and
`flush_send_buffer` returns with the action event still in the buffer and
no `TriggeredAction` message sent — refuting the claim for every
action-key event in the buffer. -/
theorem action_key_not_processed_past_timeout :
    flush_send_buffer (fun _ _ => []) (fun _ => true) none true 10 5 c7_state =
      some (true,
        { c7_state with send_buffer := [c7_action_event], flush_scheduled_at := some 17 },
        [Effect.flush_device]) := by
  decide

/-- For a send buffer consisting of action-key events only, the flush
sends exactly the `Down` messages in buffer order, emits nothing to the
VirtualDevice, consumes the whole buffer, and leaves the rest of the
state unchanged. -/
theorem flush_action_keys_trigger_actions (stage : StageFn) (dev : KeyEvent → Bool)
    (debounce : Option DebouncerFn) (devflush : Bool) (now : Time) (fuel : Nat)
    (s : ServerState)
    (hall : ∀ e ∈ s.send_buffer, is_action_key e.key = true)
    (hf : s.send_buffer.length < fuel) :
    flush_send_buffer stage dev debounce devflush now fuel s =
      some (devflush, { s with send_buffer := [] },
        ((s.send_buffer.filter (fun e => decide (e.state = KeyState.Down))).map
          (fun e => Effect.send_triggered_action (key_action_index e.key))) ++
        [Effect.flush_device]) := by
  unfold flush_send_buffer
  rw [flush_walk_action_only stage dev debounce now fuel 0 s hall (Nat.zero_le _) (by omega)]
  simp [List.drop_length]

/-- When the flush walk is at an action-key event (at any index of any
buffer), its step emits the triggered-action message exactly when the
event's state is `Down`, changes no state, and advances past the event. -/
theorem flush_walk_action_step (stage : StageFn) (dev : KeyEvent → Bool)
    (debounce : Option DebouncerFn) (now : Time) (fuel i : Nat) (s : ServerState)
    (e : KeyEvent) (he : s.send_buffer.get? i = some e)
    (hact : is_action_key e.key = true) :
    flush_walk stage dev debounce now (fuel + 1) i s =
      with_trace (if e.state = KeyState.Down
        then [Effect.send_triggered_action (key_action_index e.key)] else [])
        (flush_walk stage dev debounce now fuel (i + 1) s) := by
  obtain ⟨hlt, hget⟩ := List.get?_eq_some.mp he
  have hact2 : is_action_key (s.send_buffer.get ⟨i, hlt⟩).key = true := by
    rw [hget]
    exact hact
  simp only [flush_walk]
  rw [dif_pos hlt, if_pos hact2]
  rw [hget]

/-- The index at which a completed flush walk exits is never below its
starting index. -/
theorem flush_walk_exit_ge (stage : StageFn) (dev : KeyEvent → Bool)
    (debounce : Option DebouncerFn) (now : Time) :
    ∀ fuel i s j s2 tr, flush_walk stage dev debounce now fuel i s = some (some j, s2, tr) →
      i ≤ j := by
  intro fuel
  induction fuel with
  | zero =>
    intro i s j s2 tr h
    simp [flush_walk] at h
  | succ fuel ih =>
    intro i s j s2 tr h
    simp only [flush_walk] at h
    split at h
    · split at h
      · -- action-key branch
        rcases hrec : flush_walk stage dev debounce now fuel (i + 1) s with _ | ⟨r', s2', tr'⟩
        · rw [hrec] at h
          simp [with_trace] at h
        · rw [hrec] at h
          simp only [with_trace, Option.some.injEq, Prod.mk.injEq] at h
          obtain ⟨hr, -, -⟩ := h
          rw [hr] at hrec
          exact Nat.le_of_succ_le (ih (i + 1) s j s2' tr' hrec)
      · split at h
        · split at h
          · -- virtual-key Down branch
            rename_i hlt hnact hvirt hdown
            rcases hrec : flush_walk stage dev debounce now fuel (i + 1)
                (toggle_virtual_key stage now s
                  (s.send_buffer.get ⟨i, hlt⟩).key).1 with _ | ⟨r', s2', tr'⟩
            · rw [hrec] at h
              simp [with_trace] at h
            · rw [hrec] at h
              simp only [with_trace, Option.some.injEq, Prod.mk.injEq] at h
              obtain ⟨hr, -, -⟩ := h
              rw [hr] at hrec
              exact Nat.le_of_succ_le (ih (i + 1) _ j s2' tr' hrec)
          · -- virtual-key Up branch
            exact Nat.le_of_succ_le (ih (i + 1) s j s2 tr h)
        · split at h
          · -- timeout element: exits at i + 1
            simp only [Option.some.injEq, Prod.mk.injEq] at h
            obtain ⟨hr, -, -⟩ := h
            omega
          · split at h
            · -- positive debounce delay: exits at i
              simp only [Option.some.injEq, Prod.mk.injEq] at h
              obtain ⟨hr, -, -⟩ := h
              omega
            · split at h
              · -- send succeeded: continue
                rcases hrec : flush_walk stage dev debounce now fuel (i + 1) s with _ | ⟨r', s2', tr'⟩
                · rw [hrec] at h
                  simp [with_trace] at h
                · rw [hrec] at h
                  simp only [with_trace, Option.some.injEq, Prod.mk.injEq] at h
                  obtain ⟨hr, -, -⟩ := h
                  rw [hr] at hrec
                  exact Nat.le_of_succ_le (ih (i + 1) s j s2' tr' hrec)
              · -- send failed: the outcome is not a completion
                simp only [Option.some.injEq, Prod.mk.injEq] at h
                obtain ⟨hr, -, -⟩ := h
                exact Option.noConfusion hr
    · -- i ≥ length: exits at i
      simp only [Option.some.injEq, Prod.mk.injEq] at h
      obtain ⟨hr, -, -⟩ := h
      omega

/-- Every `send_key_event` effect produced by a flush walk carries a
non-action key: the walk's send branch is only reached when
`is_action_key` is false for the event. -/
theorem flush_walk_sent_keys (stage : StageFn) (dev : KeyEvent → Bool)
    (debounce : Option DebouncerFn) (now : Time) :
    ∀ fuel i s r s2 tr, flush_walk stage dev debounce now fuel i s = some (r, s2, tr) →
      ∀ e, Effect.send_key_event e ∈ tr → is_action_key e.key = false := by
  intro fuel
  induction fuel with
  | zero =>
    intro i s r s2 tr h
    simp [flush_walk] at h
  | succ fuel ih =>
    intro i s r s2 tr h
    simp only [flush_walk] at h
    split at h
    · split at h
      · -- action-key branch: the prefix holds no send_key_event
        rcases hrec : flush_walk stage dev debounce now fuel (i + 1) s with _ | ⟨r', s2', tr'⟩
        · rw [hrec] at h
          simp [with_trace] at h
        · rw [hrec] at h
          simp only [with_trace, Option.some.injEq, Prod.mk.injEq] at h
          obtain ⟨hr, hs2, htr⟩ := h
          subst hr hs2 htr
          intro e hmem
          rcases List.mem_append.mp hmem with hm | hm
          · revert hm
            split <;> simp
          · exact ih (i + 1) s r' s2' tr' hrec e hm
      · split at h
        · split at h
          · -- virtual-key Down branch: the toggle trace is stage_update only
            rename_i hlt hnact hvirt hdown
            rcases hrec : flush_walk stage dev debounce now fuel (i + 1)
                (toggle_virtual_key stage now s
                  (s.send_buffer.get ⟨i, hlt⟩).key).1 with _ | ⟨r', s2', tr'⟩
            · rw [hrec] at h
              simp [with_trace] at h
            · rw [hrec] at h
              simp only [with_trace, Option.some.injEq, Prod.mk.injEq] at h
              obtain ⟨hr, hs2, htr⟩ := h
              subst hr hs2 htr
              intro e hmem
              rcases List.mem_append.mp hmem with hm | hm
              · obtain ⟨ev, hev⟩ := toggle_virtual_key_trace stage now s
                  (s.send_buffer.get ⟨i, hlt⟩).key (Effect.send_key_event e) hm
                exact Effect.noConfusion hev
              · exact ih (i + 1) _ r' s2' tr' hrec e hm
          · -- virtual-key Up branch
            exact ih (i + 1) s r s2 tr h
        · split at h
          · -- timeout element: empty trace
            simp only [Option.some.injEq, Prod.mk.injEq] at h
            obtain ⟨-, -, htr⟩ := h
            subst htr
            intro e hmem
            exact absurd hmem (List.not_mem_nil _)
          · split at h
            · -- positive debounce delay: empty trace
              simp only [Option.some.injEq, Prod.mk.injEq] at h
              obtain ⟨-, -, htr⟩ := h
              subst htr
              intro e hmem
              exact absurd hmem (List.not_mem_nil _)
            · split at h
              · -- send succeeded: the sent event is not an action key
                rename_i hlt hnact hnvirt hntime hnodelay hdev
                rcases hrec : flush_walk stage dev debounce now fuel (i + 1) s with _ | ⟨r', s2', tr'⟩
                · rw [hrec] at h
                  simp [with_trace] at h
                · rw [hrec] at h
                  simp only [with_trace, Option.some.injEq, Prod.mk.injEq] at h
                  obtain ⟨hr, hs2, htr⟩ := h
                  subst hr hs2 htr
                  intro e hmem
                  rcases List.mem_append.mp hmem with hm | hm
                  · rw [List.mem_singleton, Effect.send_key_event.injEq] at hm
                    subst hm
                    simp only [Bool.not_eq_true] at hnact
                    exact hnact
                  · exact ih (i + 1) s r' s2' tr' hrec e hm
              · -- send failed: the sent event is not an action key
                rename_i hlt hnact hnvirt hntime hnodelay hndev
                simp only [Option.some.injEq, Prod.mk.injEq] at h
                obtain ⟨-, -, htr⟩ := h
                subst htr
                intro e hmem
                rw [List.mem_singleton, Effect.send_key_event.injEq] at hmem
                subst hmem
                simp only [Bool.not_eq_true] at hnact
                exact hnact
    · -- i ≥ length: empty trace
      simp only [Option.some.injEq, Prod.mk.injEq] at h
      obtain ⟨-, -, htr⟩ := h
      subst htr
      intro e hmem
      exact absurd hmem (List.not_mem_nil _)

/-- Every `send_key_event` effect in a full `flush_send_buffer` trace
carries a non-action key. -/
theorem flush_send_buffer_sent_keys (stage : StageFn) (dev : KeyEvent → Bool)
    (debounce : Option DebouncerFn) (devflush : Bool) (now : Time) :
    ∀ fuel s b s2 tr,
      flush_send_buffer stage dev debounce devflush now fuel s = some (b, s2, tr) →
      ∀ e, Effect.send_key_event e ∈ tr → is_action_key e.key = false := by
  intro fuel s b s2 tr h e hmem
  rcases hw : flush_walk stage dev debounce now fuel 0 s with _ | ⟨r, s2w, trw⟩
  · unfold flush_send_buffer at h
    rw [hw] at h
    exact Option.noConfusion h
  · rcases r with _ | j
    · have heq : flush_send_buffer stage dev debounce devflush now fuel s =
          some (false, s2w, trw) := by
        unfold flush_send_buffer
        rw [hw]
      rw [heq] at h
      simp only [Option.some.injEq, Prod.mk.injEq] at h
      obtain ⟨-, -, htr⟩ := h
      subst htr
      exact flush_walk_sent_keys stage dev debounce now fuel 0 s none s2w trw hw e hmem
    · have heq : flush_send_buffer stage dev debounce devflush now fuel s =
          some (devflush, { s2w with send_buffer := s2w.send_buffer.drop j },
            trw ++ [Effect.flush_device]) := by
        unfold flush_send_buffer
        rw [hw]
      rw [heq] at h
      simp only [Option.some.injEq, Prod.mk.injEq] at h
      obtain ⟨-, -, htr⟩ := h
      subst htr
      rcases List.mem_append.mp hmem with hm | hm
      · exact flush_walk_sent_keys stage dev debounce now fuel 0 s (some j) s2w trw hw e hm
      · rw [List.mem_singleton] at hm
        exact Effect.noConfusion hm

/-- C7 (amended): every action-key event the flush walk reaches (before a
`Timeout` element or a positive debounce delay stops it) sends a
triggered-action message with index `key − first_action` exactly when the
event's state is `Down`, never reaches the VirtualDevice, and is consumed.
Over arbitrary (mixed) buffers: (1) at every reached action-key event the
walk emits the triggered-action message iff the state is `Down`, changes
nothing else, and advances past the event; (2) whenever the walk
completes, the reached event lies inside the prefix erased by
`flush_send_buffer` (the exit index is beyond it), so the event is
consumed; (3) a `flush_send_buffer` trace never sends an action key to the
VirtualDevice; and (4) for a send buffer consisting of action-key events,
the flush sends exactly the `Down` messages in buffer order, emits nothing
to the VirtualDevice, and empties the buffer, leaving the rest of the
state unchanged.  Action-key events past a stopping point stay in the
buffer for a later flush. -/
theorem flush_action_key_processing (stage : StageFn) (dev : KeyEvent → Bool)
    (debounce : Option DebouncerFn) (now : Time) :
    (∀ fuel i s e, s.send_buffer.get? i = some e → is_action_key e.key = true →
      flush_walk stage dev debounce now (fuel + 1) i s =
        with_trace (if e.state = KeyState.Down
          then [Effect.send_triggered_action (key_action_index e.key)] else [])
          (flush_walk stage dev debounce now fuel (i + 1) s)) ∧
    (∀ fuel i s e j s2 tr, s.send_buffer.get? i = some e → is_action_key e.key = true →
      flush_walk stage dev debounce now (fuel + 1) i s = some (some j, s2, tr) →
      i < j) ∧
    (∀ fuel s devflush b s2 tr,
      flush_send_buffer stage dev debounce devflush now fuel s = some (b, s2, tr) →
      ∀ e, Effect.send_key_event e ∈ tr → is_action_key e.key = false) ∧
    (∀ fuel devflush s, (∀ e ∈ s.send_buffer, is_action_key e.key = true) →
      s.send_buffer.length < fuel →
      flush_send_buffer stage dev debounce devflush now fuel s =
        some (devflush, { s with send_buffer := [] },
          ((s.send_buffer.filter (fun e => decide (e.state = KeyState.Down))).map
            (fun e => Effect.send_triggered_action (key_action_index e.key))) ++
          [Effect.flush_device])) := by
  refine ⟨?_, ?_, ?_, ?_⟩
  · intro fuel i s e he hact
    exact flush_walk_action_step stage dev debounce now fuel i s e he hact
  · intro fuel i s e j s2 tr he hact h
    rw [flush_walk_action_step stage dev debounce now fuel i s e he hact] at h
    rcases hrec : flush_walk stage dev debounce now fuel (i + 1) s with _ | ⟨r', s2', tr'⟩
    · rw [hrec] at h
      simp [with_trace] at h
    · rw [hrec] at h
      simp only [with_trace, Option.some.injEq, Prod.mk.injEq] at h
      obtain ⟨hr, -, -⟩ := h
      rw [hr] at hrec
      have := flush_walk_exit_ge stage dev debounce now fuel (i + 1) s j s2' tr' hrec
      omega
  · intro fuel s devflush b s2 tr h e hmem
    exact flush_send_buffer_sent_keys stage dev debounce devflush now fuel s b s2 tr h e hmem
  · intro fuel devflush s hall hf
    exact flush_action_keys_trigger_actions stage dev debounce devflush now fuel s hall hf

def c7m_phys : KeyEvent := ⟨Key.phys 9, KeyState.Down, 0⟩

def c7m_action : KeyEvent := ⟨Key.action 4, KeyState.Down, 0⟩

def c7m_state : ServerState :=
  ⟨[c7m_phys, c7m_action], none, none, 0, [], ⟨Key.noKey, KeyState.Up, 0⟩, 0⟩

def c7w_state : ServerState :=
  ⟨[⟨Key.action 3, KeyState.Down, 0⟩, ⟨Key.action 3, KeyState.Up, 0⟩,
    ⟨Key.action 5, KeyState.Down, 0⟩], none, none, 0, [], ⟨Key.noKey, KeyState.Up, 0⟩, 0⟩

/-- Witness for the amended C7 on a mixed buffer (a physical key followed
by an action key) and on an all-action-key buffer: the reached action-key
event emits its message and is consumed, and the physical key — the only
event sent to the device — is not an action key. -/
theorem flush_action_key_processing_witness :
    (flush_walk (fun _ _ => []) (fun _ => true) none 2 (1 + 1) 1 c7m_state =
      with_trace (if c7m_action.state = KeyState.Down
        then [Effect.send_triggered_action (key_action_index c7m_action.key)] else [])
        (flush_walk (fun _ _ => []) (fun _ => true) none 2 1 (1 + 1) c7m_state)) ∧
    1 < 2 ∧
    is_action_key c7m_phys.key = false ∧
    flush_send_buffer (fun _ _ => []) (fun _ => true) none true 2 4 c7w_state =
      some (true, { c7w_state with send_buffer := [] },
        ((c7w_state.send_buffer.filter (fun e => decide (e.state = KeyState.Down))).map
          (fun e => Effect.send_triggered_action (key_action_index e.key))) ++
        [Effect.flush_device]) := by
  obtain ⟨h1, h2, h3, h4⟩ := flush_action_key_processing (fun _ _ => []) (fun _ => true) none 2
  refine ⟨h1 1 1 c7m_state c7m_action rfl rfl, ?_, ?_, h4 4 true c7w_state (by decide) (by decide)⟩
  · exact h2 1 1 c7m_state c7m_action 2 c7m_state
      [Effect.send_triggered_action 4] rfl rfl (by decide)
  · exact h3 3 c7m_state true true { c7m_state with send_buffer := [] }
      [Effect.send_key_event c7m_phys, Effect.send_triggered_action 4, Effect.flush_device]
      (by decide) c7m_phys (by decide)

/-- C3: over any flush walk started from a state whose latch set is empty
and whose `last_key_event` is not a virtual-key event (as at program
start), a virtual key `v` is contained in `virtual_keys_down` afterwards
iff `v` was toggled an odd number of times (each toggle translates exactly
one `(v, Down)` — when inserting — or `(v, Up)` — when removing — into
the Stage, so the toggle count is the number of `stage.update` calls whose
event has key `v`); the `Down`s emitted to the Stage for `v` exceed the
`Up`s by exactly one when `v` is in `virtual_keys_down`, and are equal
otherwise; and every `stage.update` call of the walk's trace uses the
sentinel device index `no_device_index`. -/
theorem virtual_key_latch_consistency (stage : StageFn) (dev : KeyEvent → Bool)
    (debounce : Option DebouncerFn) (now : Time) (fuel : Nat)
    (s : ServerState) (r : Option Nat) (s2 : ServerState) (tr : List Effect)
    (hempty : s.virtual_keys_down = [])
    (hlast : is_virtual_key s.last_key_event.key = false)
    (h : flush_walk stage dev debounce now fuel 0 s = some (r, s2, tr)) :
    (∀ v, is_virtual_key v = true →
      ((v ∈ s2.virtual_keys_down) ↔
        (stage_update_count v KeyState.Down tr +
         stage_update_count v KeyState.Up tr) % 2 = 1) ∧
      stage_update_count v KeyState.Down tr =
        stage_update_count v KeyState.Up tr +
          (if v ∈ s2.virtual_keys_down then 1 else 0)) ∧
    (∀ ev di, Effect.stage_update ev di ∈ tr → di = no_device_index) := by
  have hinv : vk_inv s := by
    refine ⟨by rw [hempty]; exact List.nodup_nil, ?_⟩
    intro hv
    rw [hlast] at hv
    exact Bool.noConfusion hv
  obtain ⟨hinv2, hcnt, hsent⟩ :=
    flush_walk_latch stage dev debounce now fuel 0 s r s2 tr hinv h
  refine ⟨?_, hsent⟩
  intro v hvirt
  have hc := hcnt v hvirt
  have hnm : v ∉ s.virtual_keys_down := by
    rw [hempty]
    exact List.not_mem_nil v
  rw [if_neg hnm] at hc
  constructor
  · by_cases hm : v ∈ s2.virtual_keys_down
    · rw [if_pos hm] at hc
      simp only [hm, iff_true, true_iff]
      omega
    · rw [if_neg hm] at hc
      simp only [hm, false_iff, iff_false]
      omega
  · by_cases hm : v ∈ s2.virtual_keys_down
    · rw [if_pos hm] at hc
      rw [if_pos hm]
      omega
    · rw [if_neg hm] at hc
      rw [if_neg hm]
      omega

def c3v_state : ServerState :=
  ⟨[⟨Key.virt 1, KeyState.Down, 0⟩], none, none, 0, [], ⟨Key.noKey, KeyState.Up, 0⟩, 0⟩

def c3v_state_after : ServerState :=
  ⟨[⟨Key.virt 1, KeyState.Down, 0⟩], none, none, 0, [Key.virt 1],
   ⟨Key.virt 1, KeyState.Down, 0⟩, no_device_index⟩

theorem c3v_toggle_eval :
    toggle_virtual_key (fun _ _ => []) 3 c3v_state (Key.virt 1) =
      (c3v_state_after, [Effect.stage_update ⟨Key.virt 1, KeyState.Down, 0⟩ no_device_index]) := by
  unfold toggle_virtual_key
  rw [if_neg (by decide), translate_input_eq]
  decide

theorem c3v_walk_eval :
    flush_walk (fun _ _ => []) (fun _ => true) none 3 2 0 c3v_state =
      some (some 1, c3v_state_after,
        [Effect.stage_update ⟨Key.virt 1, KeyState.Down, 0⟩ no_device_index]) := by
  have hstep : flush_walk (fun _ _ => []) (fun _ => true) none 3 2 0 c3v_state =
      with_trace (toggle_virtual_key (fun _ _ => []) 3 c3v_state (Key.virt 1)).2
        (flush_walk (fun _ _ => []) (fun _ => true) none 3 1 1
          (toggle_virtual_key (fun _ _ => []) 3 c3v_state (Key.virt 1)).1) := rfl
  rw [hstep, c3v_toggle_eval]
  rfl

/-- Witness for C3: a flush walk over a buffer holding one virtual-key
`Down` event, starting from the empty latch set; the key is toggled once
(odd), ends up latched, and the Stage saw one `Down` and no `Up` for it,
at the sentinel device index. -/
theorem virtual_key_latch_consistency_witness :
    ((Key.virt 1 ∈ c3v_state_after.virtual_keys_down) ↔
      (stage_update_count (Key.virt 1) KeyState.Down
         [Effect.stage_update ⟨Key.virt 1, KeyState.Down, 0⟩ no_device_index] +
       stage_update_count (Key.virt 1) KeyState.Up
         [Effect.stage_update ⟨Key.virt 1, KeyState.Down, 0⟩ no_device_index]) % 2 = 1) ∧
    stage_update_count (Key.virt 1) KeyState.Down
        [Effect.stage_update ⟨Key.virt 1, KeyState.Down, 0⟩ no_device_index] =
      stage_update_count (Key.virt 1) KeyState.Up
          [Effect.stage_update ⟨Key.virt 1, KeyState.Down, 0⟩ no_device_index] +
        (if Key.virt 1 ∈ c3v_state_after.virtual_keys_down then 1 else 0) :=
  (virtual_key_latch_consistency (fun _ _ => []) (fun _ => true) none 3 2
    c3v_state (some 1) c3v_state_after
    [Effect.stage_update ⟨Key.virt 1, KeyState.Down, 0⟩ no_device_index] rfl rfl
    (by exact c3v_walk_eval)).1 (Key.virt 1) rfl
